import Mathlib

/-!
Verification of the binchotan daemon (Rust) against its natural-language
specification.  The Rust sources `connection.rs`, `cache.rs`, `auth.rs`,
`config.rs` and `main.rs` are embedded shallowly: pure control flow becomes
Lean functions, fallible code returns `Except`, and a Rust panic
(`unreachable!()`, out-of-bounds indexing) is modelled as `Option.none` at
the outermost level.  External collaborators that are out of scope for the
spec (the remote API client in `api.rs`, the Lua filter engine in
`filter.rs`, the error type's `Display` impl in `error.rs`) are modelled as
parameters or, where the spec fixes their behaviour, from the spec's words.
-/

namespace Binchotan

/-- A JSON value, as `serde_json::Value` is used by `connection.rs`
(string, number, object, array, boolean, null). -/
inductive JValue where
  | str (s : String)
  | num (n : Int)
  | obj (fields : List (String × JValue))
  | arr (elems : List JValue)
  | bool (b : Bool)
  | null

/-- Modelled from the spec: `methods.rs` (the `HttpMethod` type named by
`connection.rs`) is not among the provided sources; the spec only says the
`plain-call` shape carries an `http_method` field, so the standard verbs
are used. -/
inductive HttpMethod where
  | get | post | put | delete
deriving DecidableEq, Repr

/-- Parse an `HttpMethod` from its JSON string representation. -/
def HttpMethod.ofString : String → Option HttpMethod
  | "GET" => some .get
  | "POST" => some .post
  | "PUT" => some .put
  | "DELETE" => some .delete
  | _ => none

/-- Modelled from the spec: `tweet.rs` is not among the provided sources and
the spec places the timeline item schema out of scope; a timeline item is
therefore an opaque record with an identifier and a text payload. -/
structure Tweet where
  id : Nat
  text : String
deriving DecidableEq, Repr

/-- The fixed protocol version literal (`JSONRPC_VERSION` in
`connection.rs`). -/
def JSONRPC_VERSION : String := "2.0"

/-- Modelled from the spec: the build version string returned by the
`status` handler (`crate::VERSION`, whose definition is not among the
provided sources). -/
def VERSION : String := "0.1.0"

/-- The per-method parameter shapes of `connection.rs`'s `RequestParams`,
declared (and, under `serde(untagged)`, attempted) in this order: the
four-field `Plain` shape, the two-field `MapWithId` shape, the generic
key-value `Map`. -/
inductive RequestParams where
  | Plain (user_id : String) (http_method : HttpMethod) (endpoint : String)
      (api_params : List (String × JValue))
  | MapWithId (user_id : String) (api_params : List (String × JValue))
  | Map (m : List (String × JValue))

/-- `RequestParams::default()` is the empty generic map. -/
def RequestParams.default : RequestParams := .Map []

/-- The method enumeration of `connection.rs`. -/
inductive Method where
  | Plain
  | HomeTimeline
  | Status
  | AccountList
deriving DecidableEq, Repr

/-- A structured request (`Request` in `connection.rs`). -/
structure Request where
  jsonrpc : String
  method : Method
  params : RequestParams
  id : String

/-- The application error type.  `error.rs` is not among the provided
sources; the constructors are reconstructed from their uses in
`connection.rs` (the `From<AppError> for ResponseError` match arms and the
errors raised by the handlers), `auth.rs` and `cache.rs`.  Payloads are
kept only where the provided sources construct them. -/
inductive AppError where
  | Io
  | ApiResponseParse
  | ApiResponseNotFound
  | ApiResponseSerialize
  | ApiRequest
  | ApiResponseStatus
  | OAuth (msg : String)
  | OAuthUrlParse
  | SocketPayloadParse
  | RpcVersion (v : String)
  | RpcParamsParse
  | RpcParamsMismatch (req : Request)
  | RpcTooLarge
  | Lua (msg : String)
  | Other (msg : String)
  | ApiExpiredToken
  | RpcUnknownAccount (user_id : String)
  | ServerLaunch (msg : String)
  | CacheParse

/-- The wire-code mapping of `From<AppError> for ResponseError` in
`connection.rs`.  Variants not listed in the match fall into the
`_ => unreachable!()` arm, i.e. the conversion panics: those are mapped to
`none`. -/
def errorCode : AppError → Option Int
  | .Io => some (-32000)
  | .ApiResponseParse => some (-32000)
  | .ApiResponseNotFound => some (-32000)
  | .ApiResponseSerialize => some (-32000)
  | .ApiRequest => some (-32000)
  | .ApiResponseStatus => some (-32001)
  | .OAuth _ => some (-32000)
  | .OAuthUrlParse => some (-32000)
  | .SocketPayloadParse => some (-32700)
  | .RpcVersion _ => some (-32600)
  | .RpcParamsParse => some (-32700)
  | .RpcParamsMismatch _ => some (-32602)
  | .RpcTooLarge => some (-32603)
  | .Lua _ => some (-32002)
  | .Other _ => some (-32099)
  | .ApiExpiredToken => some (-32000)
  | .RpcUnknownAccount _ => none
  | .ServerLaunch _ => none
  | .CacheParse => none

/-- Modelled from the spec: the human-readable message attached to an error
response (`err.to_string()`; the `Display` impl lives in the missing
`error.rs`).  The spec constrains only the numeric code, so any total
string rendering is faithful. -/
def AppError.message : AppError → String
  | .Io => "io error"
  | .ApiResponseParse => "could not parse api response"
  | .ApiResponseNotFound => "api response field not found"
  | .ApiResponseSerialize => "could not serialize api response"
  | .ApiRequest => "api request failed"
  | .ApiResponseStatus => "api returned a failure status"
  | .OAuth m => m
  | .OAuthUrlParse => "could not parse oauth url"
  | .SocketPayloadParse => "could not parse socket payload"
  | .RpcVersion v => "unsupported rpc version: " ++ v
  | .RpcParamsParse => "could not parse rpc params"
  | .RpcParamsMismatch _ => "rpc params mismatch"
  | .RpcTooLarge => "rpc payload too large"
  | .Lua m => m
  | .Other m => m
  | .ApiExpiredToken => "expired token"
  | .RpcUnknownAccount u => "unknown account: " ++ u
  | .ServerLaunch m => m
  | .CacheParse => "could not parse cache"

/-- `ResponsePlainMeta` of `connection.rs` (both fields are currently
hard-coded to zero at every construction site). -/
structure ResponsePlainMeta where
  api_calls_remaining : Nat
  api_calls_reset : Nat
deriving DecidableEq, Repr

/-- `ResponseError` of `connection.rs`. -/
structure ResponseError where
  code : Int
  message : String
  data : Option JValue

/-- `ResponseContent` of `connection.rs`: exactly one of a result body or
an error. -/
inductive ResponseContent where
  | Plain (meta : ResponsePlainMeta) (body : JValue)
  | HomeTimeline (meta : ResponsePlainMeta) (body : List Tweet)
  | Status (version : String)
  | AccountList (user_ids : List String)
  | Error (e : ResponseError)

/-- A response (`Response` in `connection.rs`). -/
structure Response where
  jsonrpc : String
  content : ResponseContent
  id : String

/-- Modelled from the spec: a loaded filter exposes exactly the capability
`run(tweet) -> tweet | drop` (`filter.rs` is not among the provided
sources); a failing filter surfaces a filter-execution error, which the
spec maps to code `-32002` (`AppError::Lua`). -/
def Filter : Type := Tweet → Except String (Option Tweet)

/-- Run one tweet through the filter chain in order, as the inner loop of
`Handler::handle_timeline`: the first filter returning `drop` (`None`)
short-circuits the rest, an accepted tweet is threaded (possibly
transformed) to the next filter, and a filter failure aborts with the
error. -/
def runChain : List Filter → Tweet → Except String (Option Tweet)
  | [], t => .ok (some t)
  | f :: fs, t =>
    match f t with
    | .error e => .error e
    | .ok none => .ok none
    | .ok (some t') => runChain fs t'

/-- The outer loop of `Handler::handle_timeline`: every fetched tweet is
threaded through the chain; dropped tweets are skipped, accepted
(transformed) tweets are kept in order, and a filter failure aborts the
whole request. -/
def filterTweets (fs : List Filter) : List Tweet → Except String (List Tweet)
  | [] => .ok []
  | t :: ts =>
    match runChain fs t with
    | .error e => .error e
    | .ok none => filterTweets fs ts
    | .ok (some t') =>
      match filterTweets fs ts with
      | .error e => .error e
      | .ok rest => .ok (t' :: rest)

/-- Modelled from the spec: the remote API client handle (`api.rs` is not
among the provided sources).  Per the spec's §3, a client handle carries
the authoritative account identifier (from the "who am I" lookup) and the
credential it wraps. -/
structure ApiClient where
  user_id : String
  access_token : String
deriving DecidableEq, Repr

/-- Modelled from the spec: the failure kinds of the external API client
(§7 distinguishes upstream "status" failures, code `-32001`, from generic
upstream I/O and parse failures, code `-32000`). -/
inductive ApiError where
  | status
  | request
deriving DecidableEq, Repr

/-- Map an upstream failure onto the application error type, per §7. -/
def ApiError.toAppError : ApiError → AppError
  | .status => .ApiResponseStatus
  | .request => .ApiRequest

/-- The behaviour of the external collaborators consumed by the dispatcher:
the generic call and timeline-fetch capabilities of the API client, and the
filter loader keyed by the configured scope set. -/
structure Env where
  call : ApiClient → HttpMethod → String → List (String × JValue) →
    Except ApiError JValue
  timeline : ApiClient → List (String × JValue) → Except ApiError (List Tweet)
  loadFilters : List String → Except String (List Filter)

/-- Look up a key in an association list (the shallow model of
`HashMap::get`). -/
def lookupA {α : Type} (m : List (String × α)) (k : String) : Option α :=
  (m.find? (fun p => p.fst == k)).map Prod.snd

/-- The dispatcher state (`Handler` in `connection.rs`): the session map
built at startup, the filter directory and the configured scopes. -/
structure Handler where
  clients : List (String × ApiClient)
  scopes : List String

/-- `Request::validate`: the protocol version must equal the fixed literal
`"2.0"`; anything else is an `RpcVersion` error. -/
def Request.validate (req : Request) : Except AppError Unit :=
  if req.jsonrpc = JSONRPC_VERSION then .ok () else .error (.RpcVersion req.jsonrpc)

/-- `Handler::handle_plain`.  The result is `none` when the Rust code would
panic (no panic site exists in this handler, but the type is shared with
the other handlers). -/
def handlePlain (env : Env) (h : Handler) (req : Request) :
    Option (Except AppError Response) :=
  match req.params with
  | .Plain user_id http_method endpoint api_params =>
    match lookupA h.clients user_id with
    | none => some (.error (.RpcUnknownAccount user_id))
    | some client =>
      match env.call client http_method endpoint api_params with
      | .error e => some (.error e.toAppError)
      | .ok body =>
        some (.ok { jsonrpc := JSONRPC_VERSION
                    content := .Plain ⟨0, 0⟩ body
                    id := req.id })
  | _ => some (.error (.RpcParamsMismatch req))

/-- `Handler::handle_timeline`.  After the fetch the Rust code logs
`tweets[0]`, which panics (`none`) on an empty timeline; then the filter
chain is loaded and applied. -/
def handleTimeline (env : Env) (h : Handler) (req : Request) :
    Option (Except AppError Response) :=
  match req.params with
  | .MapWithId user_id api_params =>
    match lookupA h.clients user_id with
    | none => some (.error (.RpcUnknownAccount user_id))
    | some client =>
      match env.timeline client api_params with
      | .error e => some (.error e.toAppError)
      | .ok tweets =>
        match tweets with
        | [] => none
        | _ :: _ =>
          match env.loadFilters h.scopes with
          | .error e => some (.error (.Lua e))
          | .ok filters =>
            match filterTweets filters tweets with
            | .error e => some (.error (.Lua e))
            | .ok kept =>
              some (.ok { jsonrpc := JSONRPC_VERSION
                          content := .HomeTimeline ⟨0, 0⟩ kept
                          id := req.id })
  | _ => some (.error (.RpcParamsMismatch req))

/-- `Handler::handle_status`: requires the explicitly empty generic map and
returns the build version. -/
def handleStatus (req : Request) : Option (Except AppError Response) :=
  match req.params with
  | .Map prms =>
    if prms.isEmpty then
      some (.ok { jsonrpc := JSONRPC_VERSION
                  content := .Status VERSION
                  id := req.id })
    else some (.error (.RpcParamsMismatch req))
  | _ => some (.error (.RpcParamsMismatch req))

/-- `Handler::handle_account_list`: requires the explicitly empty generic
map and returns the session map's keys. -/
def handleAccountList (h : Handler) (req : Request) :
    Option (Except AppError Response) :=
  match req.params with
  | .Map prms =>
    if prms.isEmpty then
      some (.ok { jsonrpc := JSONRPC_VERSION
                  content := .AccountList (h.clients.map Prod.fst)
                  id := req.id })
    else some (.error (.RpcParamsMismatch req))
  | _ => some (.error (.RpcParamsMismatch req))

/-- `Handler::handle_inner`: validate the protocol version, then route on
the method. -/
def handleInner (env : Env) (h : Handler) (req : Request) :
    Option (Except AppError Response) :=
  match req.validate with
  | .error e => some (.error e)
  | .ok () =>
    match req.method with
    | .Plain => handlePlain env h req
    | .HomeTimeline => handleTimeline env h req
    | .Status => handleStatus req
    | .AccountList => handleAccountList h req

/-- `Handler::handle`: every `Err` from `handle_inner` is converted through
`From<AppError> for ResponseError` into an error response carrying the
original request id.  The conversion itself panics (`none`) on the error
variants that fall into the `unreachable!()` arm, and a panic inside
`handle_inner` (`none`) propagates. -/
def handle (env : Env) (h : Handler) (req : Request) : Option Response :=
  match handleInner env h req with
  | none => none
  | some (.ok resp) => some resp
  | some (.error e) =>
    match errorCode e with
    | none => none
    | some code =>
      some { jsonrpc := JSONRPC_VERSION
             content := .Error ⟨code, e.message, none⟩
             id := req.id }

/-- Extract a JSON string. -/
def JValue.asString : JValue → Option String
  | .str s => some s
  | _ => none

/-- Extract a JSON object's field list. -/
def JValue.asObj : JValue → Option (List (String × JValue))
  | .obj m => some m
  | _ => none

/-- `serde(untagged)` attempt at the four-field `Plain` shape: the fields
`user_id` (string), `http_method` (an `HttpMethod` string), `endpoint`
(string) and `api_params` (object) must all be present with the right
types; extra fields are ignored (serde's default for structs). -/
def parsePlain (v : JValue) : Option RequestParams :=
  match v.asObj with
  | none => none
  | some m =>
    match (lookupA m "user_id").bind JValue.asString with
    | none => none
    | some uid =>
      match ((lookupA m "http_method").bind JValue.asString).bind HttpMethod.ofString with
      | none => none
      | some hm =>
        match (lookupA m "endpoint").bind JValue.asString with
        | none => none
        | some ep =>
          match (lookupA m "api_params").bind JValue.asObj with
          | none => none
          | some ap => some (.Plain uid hm ep ap)

/-- `serde(untagged)` attempt at the two-field `MapWithId` shape:
`user_id` (string) and `api_params` (object) must be present with the
right types; extra fields are ignored. -/
def parseMapWithId (v : JValue) : Option RequestParams :=
  match v.asObj with
  | none => none
  | some m =>
    match (lookupA m "user_id").bind JValue.asString with
    | none => none
    | some uid =>
      match (lookupA m "api_params").bind JValue.asObj with
      | none => none
      | some ap => some (.MapWithId uid ap)

/-- The `serde(untagged)` deserialization of `RequestParams`: the variants
are attempted in declaration order — `Plain`, then `MapWithId`, then the
generic `Map`, which accepts any JSON object. -/
def parseRequestParams (v : JValue) : Option RequestParams :=
  match parsePlain v with
  | some p => some p
  | none =>
    match parseMapWithId v with
    | some p => some p
    | none => v.asObj.map .Map

/-- Is this value a JSON string? -/
def isStringVal : JValue → Bool
  | .str _ => true
  | _ => false

/-- Is this value a JSON string naming an HTTP method? -/
def isHttpMethodVal : JValue → Bool
  | .str s => (HttpMethod.ofString s).isSome
  | _ => false

/-- Is this value a JSON object? -/
def isObjVal : JValue → Bool
  | .obj _ => true
  | _ => false

/-- Does the object bind `k` to a value satisfying `pred`? -/
def hasField (m : List (String × JValue)) (k : String) (pred : JValue → Bool) : Bool :=
  match lookupA m k with
  | some v => pred v
  | none => false

/-- The spec's four-field `plain-call` shape, stated independently of the
parser: `user_id`, `http_method`, `endpoint` and `api_params` are present
with their required types. -/
def plainShape (m : List (String × JValue)) : Bool :=
  hasField m "user_id" isStringVal && hasField m "http_method" isHttpMethodVal &&
    hasField m "endpoint" isStringVal && hasField m "api_params" isObjVal

/-- The spec's two-field `home-timeline` shape, stated independently of the
parser: `user_id` and `api_params` are present with their required
types. -/
def mapWithIdShape (m : List (String × JValue)) : Bool :=
  hasField m "user_id" isStringVal && hasField m "api_params" isObjVal

/-- `CredentialState` of `cache.rs` (`Cached` is the `Default`). -/
inductive CredentialState where
  | Cached
  | Expired
  | Valid
deriving DecidableEq, Repr

/-- `Credential` of `cache.rs`.  The `state` field carries
`#[serde(skip)]`: it is dropped on serialization and re-defaulted on
deserialization. -/
structure Credential where
  access_token : String
  refresh_token : String
  state : CredentialState
deriving DecidableEq, Repr

/-- The `Cache` structure of `cache.rs`: the account map and the scope set
the credentials were issued under. -/
structure Cache where
  accounts : List (String × Credential)
  scopes : List String
deriving DecidableEq, Repr

/-- A credential as it appears in the persisted JSON: only the two token
strings (`state` is `serde(skip)`). -/
structure StoredCredential where
  access_token : String
  refresh_token : String
deriving DecidableEq, Repr

/-- The persisted store file's content, at the structure level (the JSON
text layer of `serde_json` is not modelled: `from_str (to_string x) = x`
for these derive-serialized structures). -/
structure StoredCache where
  accounts : List (String × StoredCredential)
  scopes : List String
deriving DecidableEq, Repr

/-- Serialization of a credential: the `serde(skip)` field is dropped. -/
def Credential.toStored (c : Credential) : StoredCredential :=
  ⟨c.access_token, c.refresh_token⟩

/-- Deserialization of a credential: the `serde(skip)` field takes its
`Default` value `Cached`. -/
def StoredCredential.toCredential (s : StoredCredential) : Credential :=
  ⟨s.access_token, s.refresh_token, .Cached⟩

/-- `CacheManager::save`: serialize `(scopes, credentials)` and fully
overwrite the backing file (`File::create` truncates).  The file is
modelled as `Option StoredCache` (`none` = absent). -/
def CacheManager.save (scopes : List String)
    (credentials : List (String × Credential)) : Option StoredCache :=
  some ⟨credentials.map (fun p => (p.1, p.2.toStored)), scopes⟩

/-- `CacheManager::load`: an absent file is `Ok(None)`; a present file is
parsed (a well-formed file — in particular anything `save` wrote —
deserializes back to a `Cache`). -/
def CacheManager.load (file : Option StoredCache) : Except AppError (Option Cache) :=
  match file with
  | none => .ok none
  | some sc => .ok (some ⟨sc.accounts.map (fun p => (p.1, p.2.toCredential)), sc.scopes⟩)

/-- HashSet equality is set equality: each side contains the other. -/
def scopeSetEq (a b : List String) : Bool :=
  a.all (fun s => b.contains s) && b.all (fun s => a.contains s)

/-- `HashMap::insert` on the association-list model: replace an existing
binding of the key, else append. -/
def insertA {α : Type} (m : List (String × α)) (k : String) (v : α) :
    List (String × α) :=
  if m.any (fun p => p.fst == k) then
    m.map (fun p => if p.fst == k then (k, v) else p)
  else m ++ [(k, v)]

/-- The external capabilities `Auth::clients` consumes:
`ApiClient::validate_token` (the remote validity check on an access token)
and `ApiClient::new` (which performs the "who am I" lookup and yields the
handle with the authoritative `user_id`). -/
structure AuthEnv where
  validate_token : String → Except ApiError Bool
  newClient : String → Except ApiError ApiClient

/-- The cache content as `auth.rs` consumes it (`cache.content`): the
stored scope set and the list of stored credentials. -/
structure AuthCacheContent where
  scopes : List String
  accounts : List Credential
deriving DecidableEq, Repr

/-- The credential-validation loop of `Auth::clients`: for each stored
credential, run the external validity check (an `Err` aborts the whole
build); on `true`, build a client handle and insert it under its
authoritative `user_id`; on `false`, skip the credential. -/
def buildClients (env : AuthEnv) (accs : List Credential)
    (res : List (String × ApiClient)) :
    Except AppError (List (String × ApiClient)) :=
  match accs with
  | [] => .ok res
  | acc :: rest =>
    match env.validate_token acc.access_token with
    | .error e => .error e.toAppError
    | .ok false => buildClients env rest res
    | .ok true =>
      match env.newClient acc.access_token with
      | .error e => .error e.toAppError
      | .ok client => buildClients env rest (insertA res client.user_id client)

/-- `Auth::clients` over an already-loaded cache content.  (`auth.rs`
calls `Cache::new`/`cache.save()`, whose definitions are not among the
provided sources; per the spec's §4.1 the save is a whole-file overwrite
of the content the cache object holds, which `Auth::clients` never
mutates.)  Returns the session map together with what was written back:
`none` when the early scope-mismatch return skips the save, otherwise the
exact content saved. -/
def Auth.clients (cfgScopes : List String) (env : AuthEnv)
    (cache : AuthCacheContent) :
    Except AppError (List (String × ApiClient) × Option AuthCacheContent) :=
  if scopeSetEq cache.scopes cfgScopes = false then .ok ([], none)
  else
    match buildClients env cache.accounts [] with
    | .error e => .error e
    | .ok res => .ok (res, some cache)

/-- The observable external actions of one run of
`Auth::generate_tokens`, in program order. -/
inductive AuthEvent where
  | openAuthUrl
  | serverRecv
  | tokenExchange
  | respondBrowser
deriving DecidableEq, Repr

/-- The token endpoint's reply (`result.access_token()`,
`result.refresh_token()`); a missing refresh token is `none`. -/
structure TokenResult where
  access_token : String
  refresh_token : Option String
deriving DecidableEq, Repr

/-- `Url::query_pairs().find_map(..)`: the first query pair with the given
key. -/
def findQueryParam (pairs : List (String × String)) (k : String) : Option String :=
  (pairs.find? (fun p => p.fst == k)).map Prod.snd

/-- `Auth::generate_tokens`, given the CSRF `state` embedded in the
authorization URL, the query pairs of the single callback request, and the
token endpoint's behaviour on an authorization code.  Returns the result
paired with the trace of external actions: the browser is opened and the
callback received first; missing `code`, missing `state`, or a `state`
differing from the generated one each abort before any token exchange;
otherwise the code is exchanged (emitting `tokenExchange`) and, on
success, the browser is answered and the token pair (an absent refresh
token becoming `""`) is returned. -/
def generateTokens (state : String) (query : List (String × String))
    (exchange : String → Except String TokenResult) :
    Except AppError (String × String) × List AuthEvent :=
  let ev := [AuthEvent.openAuthUrl, AuthEvent.serverRecv]
  match findQueryParam query "code" with
  | none => (.error (.Other "no authorization code was returned"), ev)
  | some auth_code =>
    match findQueryParam query "state" with
    | none => (.error (.Other "no state was returned"), ev)
    | some state_returned =>
      if state ≠ state_returned then
        (.error (.OAuth "invalid csrf state"), ev)
      else
        match exchange auth_code with
        | .error e =>
          (.error (.Other ("failed to exchange authorization code for access token: " ++ e)),
            ev ++ [.tokenExchange])
        | .ok result =>
          (.ok (result.access_token, result.refresh_token.getD ""),
            ev ++ [.tokenExchange, .respondBrowser])

/-! ## Concrete fixtures used by witnesses and counterexamples -/

/-- A filter that drops tweets with id 2 and accepts everything else. -/
def filterEx : Filter := fun t => .ok (if t.id = 2 then none else some t)

/-- A concrete external environment: the timeline fetch yields two tweets
and the filter loader yields the single filter `filterEx`. -/
def envEx : Env where
  call := fun _ _ _ _ => .ok .null
  timeline := fun _ _ => .ok [⟨1, "a"⟩, ⟨2, "b"⟩]
  loadFilters := fun _ => .ok [filterEx]

/-- An environment whose timeline fetch yields the empty list. -/
def envEmptyTL : Env where
  call := fun _ _ _ _ => .ok .null
  timeline := fun _ _ => .ok []
  loadFilters := fun _ => .ok []

/-- A dispatcher with a single session for account `alice`. -/
def handlerEx : Handler := ⟨[("alice", ⟨"alice", "tok"⟩)], ["tweet.read"]⟩

/-- A well-formed home-timeline request for `alice`. -/
def reqTimelineEx : Request := ⟨"2.0", .HomeTimeline, .MapWithId "alice" [], "42"⟩

/-- A credential whose token fails the external validity check of
`authEnvEx`. -/
def badCred : Credential := ⟨"badtok", "r1", .Cached⟩

/-- A credential whose token passes the external validity check of
`authEnvEx`. -/
def goodCred : Credential := ⟨"goodtok", "r2", .Cached⟩

/-- A concrete auth environment: every token except `"badtok"` is valid,
and the who-am-I lookup names the account `"u-"` followed by the token. -/
def authEnvEx : AuthEnv where
  validate_token := fun tok => .ok (tok != "badtok")
  newClient := fun tok => .ok ⟨"u-" ++ tok, tok⟩

/-- A token endpoint that always succeeds. -/
def exchangeEx : String → Except String TokenResult :=
  fun _ => .ok ⟨"at", some "rt"⟩

/-! ## Claims -/

/-- HashSet equality at the level of membership: `scopeSetEq a b = true`
iff the two lists contain the same strings. -/
lemma scopeSetEq_eq_true_iff (a b : List String) :
    scopeSetEq a b = true ↔ ∀ s : String, s ∈ a ↔ s ∈ b := by
  simp only [scopeSetEq, Bool.and_eq_true, List.all_eq_true,
    List.elem_iff]
  constructor
  · rintro ⟨h1, h2⟩ s
    exact ⟨fun hs => h1 s hs, fun hs => h2 s hs⟩
  · intro h
    exact ⟨fun s hs => (h s).mp hs, fun s hs => (h s).mpr hs⟩

/-- C4: if the configured scope set differs in any way (as a set) from the
stored scope set, `Auth::clients` returns the empty session map without
error and performs no write of the store file. -/
theorem scope_mismatch_empty_no_save (cfg : List String) (env : AuthEnv)
    (cache : AuthCacheContent)
    (h : ¬ ∀ s : String, s ∈ cache.scopes ↔ s ∈ cfg) :
    Auth.clients cfg env cache = .ok ([], none) := by
  have hb : scopeSetEq cache.scopes cfg = false := by
    rcases hq : scopeSetEq cache.scopes cfg with _ | _
    · rfl
    · exact absurd ((scopeSetEq_eq_true_iff _ _).mp hq) h
  unfold Auth.clients
  rw [hb]
  simp

/-- C4 witness: with stored scopes `["b"]` and configured scopes `["a"]`,
the session build yields the empty map and writes nothing. -/
theorem scope_mismatch_empty_no_save_witness :
    Auth.clients ["a"] authEnvEx ⟨["b"], [badCred]⟩ = .ok ([], none) :=
  scope_mismatch_empty_no_save ["a"] authEnvEx ⟨["b"], [badCred]⟩
    (by
      intro hall
      have h1 := (hall "b").mp (by simp)
      simp at h1)

/-- C5: saving `(scopes, accounts)` and loading again yields exactly the
stored pair: the scope set is unchanged and every account's `access_token`
and `refresh_token` round-trip unchanged (the in-memory `serde(skip)`
`state` annotation is re-defaulted to `Cached`, the value every freshly
loaded credential carries). -/
theorem cache_save_load_roundtrip (scopes : List String)
    (credentials : List (String × Credential)) :
    CacheManager.load (CacheManager.save scopes credentials) =
      .ok (some ⟨credentials.map
        (fun p => (p.1, ⟨p.2.access_token, p.2.refresh_token, .Cached⟩)), scopes⟩) ∧
    (CacheManager.load (CacheManager.save scopes credentials)).map
        (Option.map fun c => (c.scopes,
          c.accounts.map fun p => (p.1, p.2.access_token, p.2.refresh_token))) =
      .ok (some (scopes, credentials.map fun p => (p.1, p.2.access_token, p.2.refresh_token))) := by
  constructor
  · simp [CacheManager.load, CacheManager.save, List.map_map, Function.comp,
      Credential.toStored, StoredCredential.toCredential]
  · simp [CacheManager.load, CacheManager.save, Except.map, List.map_map, Function.comp,
      Credential.toStored, StoredCredential.toCredential]

/-- C8: in any run of the authorization flow whose callback carries a
`state` differing from the generated CSRF state, the flow fails with an
error and the trace contains no token-exchange action: the token endpoint
is never contacted in that run. -/
theorem csrf_mismatch_aborts_before_exchange
    (state : String) (query : List (String × String))
    (exchange : String → Except String TokenResult) (sret : String)
    (hs : findQueryParam query "state" = some sret)
    (hne : sret ≠ state) :
    (∃ e, (generateTokens state query exchange).1 = .error e) ∧
    AuthEvent.tokenExchange ∉ (generateTokens state query exchange).2 := by
  have hne' : state ≠ sret := fun h => hne h.symm
  cases hc : findQueryParam query "code" with
  | none =>
    constructor
    · exact ⟨.Other "no authorization code was returned", by simp [generateTokens, hc]⟩
    · simp [generateTokens, hc]
  | some code =>
    constructor
    · exact ⟨.OAuth "invalid csrf state", by simp [generateTokens, hc, hs, hne']⟩
    · simp [generateTokens, hc, hs, hne']

/-- C8 witness: with generated state `"abc"` and a callback returning
state `"abd"`, the flow errors out and the token endpoint is not
contacted. -/
theorem csrf_mismatch_aborts_before_exchange_witness :
    (∃ e, (generateTokens "abc" [("code", "c1"), ("state", "abd")] exchangeEx).1 = .error e) ∧
    AuthEvent.tokenExchange ∉
      (generateTokens "abc" [("code", "c1"), ("state", "abd")] exchangeEx).2 :=
  csrf_mismatch_aborts_before_exchange "abc" [("code", "c1"), ("state", "abd")]
    exchangeEx "abd" rfl (by decide)

/-- `ChainAccepts filters t t''` holds when every filter in the chain,
applied in order to the successively transformed tweet starting from `t`,
returns accept, ending in `t''`. -/
inductive ChainAccepts : List Filter → Tweet → Tweet → Prop where
  | nil (t : Tweet) : ChainAccepts [] t t
  | cons {f : Filter} {fs : List Filter} {t t' t'' : Tweet} :
      f t = .ok (some t') → ChainAccepts fs t' t'' → ChainAccepts (f :: fs) t t''

/-- `runChain` accepts exactly when every filter in order accepts. -/
lemma runChain_ok_some_iff (fs : List Filter) (t t'' : Tweet) :
    runChain fs t = .ok (some t'') ↔ ChainAccepts fs t t'' := by
  induction fs generalizing t with
  | nil =>
    constructor
    · intro h
      simp only [runChain, Except.ok.injEq, Option.some.injEq] at h
      subst h
      exact .nil t
    · intro h
      cases h
      rfl
  | cons f fs ih =>
    constructor
    · intro h
      unfold runChain at h
      cases hf : f t with
      | error e => rw [hf] at h; cases h
      | ok o =>
        cases o with
        | none => rw [hf] at h; cases h
        | some t' =>
          rw [hf] at h
          exact .cons hf ((ih t').mp h)
    · intro h
      cases h with
      | cons hf hrest =>
        unfold runChain
        rw [hf]
        exact (ih _).mpr hrest

/-- A tweet is in the filtered output exactly when some input tweet's
chain run accepts and yields it. -/
lemma filterTweets_mem (fs : List Filter) (ts out : List Tweet)
    (h : filterTweets fs ts = .ok out) (t'' : Tweet) :
    t'' ∈ out ↔ ∃ t ∈ ts, runChain fs t = .ok (some t'') := by
  induction ts generalizing out with
  | nil =>
    simp only [filterTweets, Except.ok.injEq] at h
    subst h
    simp
  | cons t rest ih =>
    unfold filterTweets at h
    cases hr : runChain fs t with
    | error e => rw [hr] at h; cases h
    | ok o =>
      cases o with
      | none =>
        rw [hr] at h
        rw [ih out h]
        simp only [List.mem_cons]
        constructor
        · rintro ⟨t0, ht0, hrun⟩
          exact ⟨t0, .inr ht0, hrun⟩
        · rintro ⟨t0, ht0 | ht0, hrun⟩
          · subst ht0
            rw [hr] at hrun
            cases hrun
          · exact ⟨t0, ht0, hrun⟩
      | some t' =>
        rw [hr] at h
        cases hrest : filterTweets fs rest with
        | error e => rw [hrest] at h; cases h
        | ok out' =>
          rw [hrest] at h
          injection h with h
          subst h
          simp only [List.mem_cons]
          rw [ih out' hrest]
          constructor
          · rintro (rfl | ⟨t0, ht0, hrun⟩)
            · exact ⟨t, .inl rfl, hr⟩
            · exact ⟨t0, .inr ht0, hrun⟩
          · rintro ⟨t0, ht0 | ht0, hrun⟩
            · subst ht0
              rw [hr] at hrun
              injection hrun with hrun
              injection hrun with hrun
              exact .inl hrun.symm
            · exact .inr ⟨t0, ht0, hrun⟩

/-- Dropping one tweet leaves the rest of the output unchanged. -/
lemma filterTweets_drop_erase (fs : List Filter) (t : Tweet) (pre post : List Tweet)
    (h : runChain fs t = .ok none) :
    filterTweets fs (pre ++ t :: post) = filterTweets fs (pre ++ post) := by
  induction pre with
  | nil =>
    simp only [List.nil_append]
    conv_lhs => unfold filterTweets
    rw [h]
  | cons p pre ih =>
    simp only [List.cons_append]
    unfold filterTweets
    simp only [ih]

/-- C1: a tweet is present in the home-timeline response body iff every
filter, applied in chain order to the (possibly transformed) tweet,
accepts; the first filter that signals drop ends that tweet's chain
regardless of the filters behind it, and removing a dropped tweet from the
input leaves the other tweets' results unaffected.  The last conjunct ties
this to the dispatcher: whenever the home-timeline handler reaches the
filter stage with these tweets and filters, the response body is exactly
the filtered output. -/
theorem timeline_filter_chain_correct
    (filters : List Filter) (ts out : List Tweet)
    (h : filterTweets filters ts = .ok out) :
    (∀ t'' : Tweet, t'' ∈ out ↔ ∃ t ∈ ts, ChainAccepts filters t t'') ∧
    (∀ (f : Filter) (fs : List Filter) (t : Tweet),
      f t = .ok none → runChain (f :: fs) t = .ok none) ∧
    (∀ (t : Tweet) (pre post : List Tweet), runChain filters t = .ok none →
      filterTweets filters (pre ++ t :: post) = filterTweets filters (pre ++ post)) ∧
    (∀ (env : Env) (hd : Handler) (req : Request) (uid : String)
      (ap : List (String × JValue)) (client : ApiClient),
      req.jsonrpc = JSONRPC_VERSION → req.method = .HomeTimeline →
      req.params = .MapWithId uid ap →
      lookupA hd.clients uid = some client →
      env.timeline client ap = .ok ts → ts ≠ [] →
      env.loadFilters hd.scopes = .ok filters →
      handle env hd req = some ⟨JSONRPC_VERSION, .HomeTimeline ⟨0, 0⟩ out, req.id⟩) := by
  refine ⟨?_, ?_, ?_, ?_⟩
  · intro t''
    rw [filterTweets_mem filters ts out h t'']
    simp only [runChain_ok_some_iff]
  · intro f fs t hf
    unfold runChain
    rw [hf]
  · intro t pre post hdrop
    exact filterTweets_drop_erase filters t pre post hdrop
  · intro env hd req uid ap client hv hm hp hc ht hne hf
    obtain ⟨jv, mth, prms, idv⟩ := req
    simp only at hv hm hp
    subst hv hm hp
    cases ts with
    | nil => exact absurd rfl hne
    | cons t0 rest =>
      simp [handle, handleInner, Request.validate, handleTimeline, hc, ht, hf, h]

/-- C1 witness: a concrete run — two fetched tweets, a filter that drops
the one with id 2 — produces a response whose body holds exactly the
accepted tweet. -/
theorem timeline_filter_chain_correct_witness :
    handle envEx handlerEx reqTimelineEx =
      some ⟨JSONRPC_VERSION, .HomeTimeline ⟨0, 0⟩ [⟨1, "a"⟩], "42"⟩ :=
  (timeline_filter_chain_correct [filterEx] [⟨1, "a"⟩, ⟨2, "b"⟩] [⟨1, "a"⟩]
      (by rfl)).2.2.2 envEx handlerEx reqTimelineEx "alice" [] ⟨"alice", "tok"⟩
    rfl rfl rfl rfl rfl (by simp) rfl

/-- A home-timeline request naming an account absent from the session map
of `handlerEx`. -/
def reqUnknownEx : Request := ⟨"2.0", .HomeTimeline, .MapWithId "nobody" [], "7"⟩

/-- C2: at a home-timeline request whose `user_id` is absent from the
session map, the inner handler does produce the distinct unknown-account
failure (not an upstream one), but converting that failure to a response
error hits the `unreachable!()` arm of `From<AppError> for ResponseError`
(its code mapping is `none`), so the dispatcher panics and no response at
all is produced. -/
theorem unknown_account_panics :
    handleInner envEx handlerEx reqUnknownEx =
      some (.error (.RpcUnknownAccount "nobody")) ∧
    errorCode (.RpcUnknownAccount "nobody") = none ∧
    handle envEx handlerEx reqUnknownEx = none :=
  ⟨rfl, rfl, rfl⟩

/-- C3 counterexample: with stored scopes matching the configured scopes
and a single credential that fails the external validity check, the store
is written back with that failing credential still in its account set (and
the returned client map is empty): a credential that fails validation is
*not* absent from the persisted accounts. -/
theorem invalid_credential_persisted_counterexample :
    Auth.clients ["s"] authEnvEx ⟨["s"], [badCred]⟩ =
      .ok ([], some ⟨["s"], [badCred]⟩) ∧
    authEnvEx.validate_token badCred.access_token = .ok false ∧
    badCred ∈ (AuthCacheContent.mk ["s"] [badCred]).accounts :=
  ⟨rfl, rfl, by simp⟩

/-- Membership in the association-list insert: an entry of the result was
already present or is the inserted binding. -/
lemma insertA_mem {α : Type} (m : List (String × α)) (k : String) (v : α)
    (p : String × α) (hp : p ∈ insertA m k v) : p ∈ m ∨ p = (k, v) := by
  unfold insertA at hp
  split at hp
  · obtain ⟨q, hq, hq2⟩ := List.mem_map.mp hp
    by_cases hk : q.fst == k
    · right
      rw [if_pos hk] at hq2
      exact hq2.symm
    · left
      rw [if_neg hk] at hq2
      rw [← hq2]
      exact hq
  · rcases List.mem_append.mp hp with h | h
    · exact .inl h
    · right
      simpa using h
/-- Every entry of the client map built by the validation loop either was
in the accumulator already or stems from a credential that passed the
validity check, with the key being the authoritative `user_id` of the
handle built from its token. -/
lemma buildClients_mem (env : AuthEnv) (accs : List Credential)
    (res0 res : List (String × ApiClient))
    (h : buildClients env accs res0 = .ok res)
    (p : String × ApiClient) (hp : p ∈ res) :
    p ∈ res0 ∨ ∃ acc ∈ accs,
      env.validate_token acc.access_token = .ok true ∧
      env.newClient acc.access_token = .ok p.2 ∧ p.1 = p.2.user_id := by
  induction accs generalizing res0 with
  | nil =>
    simp only [buildClients, Except.ok.injEq] at h
    subst h
    exact .inl hp
  | cons acc rest ih =>
    unfold buildClients at h
    cases hv : env.validate_token acc.access_token with
    | error e => rw [hv] at h; cases h
    | ok b =>
      rw [hv] at h
      cases b with
      | false =>
        rcases ih res0 h with h1 | ⟨a, ha, h2⟩
        · exact .inl h1
        · exact .inr ⟨a, List.mem_cons_of_mem acc ha, h2⟩
      | true =>
        cases hn : env.newClient acc.access_token with
        | error e => rw [hn] at h; cases h
        | ok client =>
          rw [hn] at h
          rcases ih _ h with h1 | ⟨a, ha, h2⟩
          · rcases insertA_mem res0 client.user_id client p h1 with h3 | h3
            · exact .inl h3
            · refine .inr ⟨acc, List.mem_cons_self acc rest, hv, ?_, ?_⟩
              · rw [h3]
                exact hn
              · rw [h3]
          · exact .inr ⟨a, List.mem_cons_of_mem acc ha, h2⟩

/-- C3 amended: each credential that fails the external validity check is
absent from the returned client map (every entry of the map stems from a
credential that passed the check, keyed by its authoritative `user_id`),
but the store is written back with the *original* content unchanged — the
surviving set is not what gets persisted, and failing credentials remain
in the saved accounts. -/
theorem clients_result_and_save (cfg : List String) (env : AuthEnv)
    (cache : AuthCacheContent) (res : List (String × ApiClient))
    (saved : Option AuthCacheContent)
    (h : Auth.clients cfg env cache = .ok (res, saved)) :
    (saved = none ∨ saved = some cache) ∧
    (∀ p ∈ res, ∃ acc ∈ cache.accounts,
      env.validate_token acc.access_token = .ok true ∧
      env.newClient acc.access_token = .ok p.2 ∧ p.1 = p.2.user_id) := by
  unfold Auth.clients at h
  split at h
  · injection h with h
    obtain ⟨h1, h2⟩ := Prod.mk.injEq .. ▸ h
    constructor
    · exact .inl h2.symm
    · intro p hp
      rw [← h1] at hp
      cases hp
  · cases hb : buildClients env cache.accounts [] with
    | error e => rw [hb] at h; cases h
    | ok res' =>
      rw [hb] at h
      injection h with h
      obtain ⟨h1, h2⟩ := Prod.mk.injEq .. ▸ h
      constructor
      · exact .inr h2.symm
      · intro p hp
        rw [← h1] at hp
        rcases buildClients_mem env cache.accounts [] res' hb p hp with h3 | h3
        · cases h3
        · exact h3

/-- C3 amended-claim witness: with one passing and one failing credential,
the single entry of the returned map stems from the passing credential. -/
theorem clients_result_and_save_witness :
    ∃ acc ∈ (AuthCacheContent.mk ["s"] [goodCred, badCred]).accounts,
      authEnvEx.validate_token acc.access_token = .ok true ∧
      authEnvEx.newClient acc.access_token = .ok (ApiClient.mk "u-goodtok" "goodtok") ∧
      "u-goodtok" = (ApiClient.mk "u-goodtok" "goodtok").user_id :=
  (clients_result_and_save ["s"] authEnvEx ⟨["s"], [goodCred, badCred]⟩
      [("u-goodtok", ⟨"u-goodtok", "goodtok"⟩)] (some ⟨["s"], [goodCred, badCred]⟩)
      rfl).2 ("u-goodtok", ⟨"u-goodtok", "goodtok"⟩) (by simp)

/-- C10: whenever a well-formed home-timeline request for a known account
reaches the upstream fetch, the handler panics (produces no response at
all) exactly when the fetched timeline is empty — the unconditional
`tweets[0]` read in the log statement, executed before filtering, is
out of bounds on an empty fetch and in bounds otherwise. -/
theorem timeline_empty_fetch_panics
    (env : Env) (hd : Handler) (req : Request) (uid : String)
    (ap : List (String × JValue)) (client : ApiClient) (ts : List Tweet)
    (hv : req.jsonrpc = JSONRPC_VERSION) (hm : req.method = .HomeTimeline)
    (hp : req.params = .MapWithId uid ap)
    (hc : lookupA hd.clients uid = some client)
    (ht : env.timeline client ap = .ok ts) :
    (handle env hd req = none ↔ ts = []) := by
  obtain ⟨jv, mth, prms, idv⟩ := req
  simp only at hv hm hp
  subst hv hm hp
  cases ts with
  | nil =>
    simp [handle, handleInner, Request.validate, handleTimeline, hc, ht]
  | cons t0 rest =>
    constructor
    · intro hnone
      cases hf : env.loadFilters hd.scopes with
      | error e =>
        simp [handle, handleInner, Request.validate, handleTimeline, hc, ht, hf,
          errorCode] at hnone
      | ok filters =>
        cases hft : filterTweets filters (t0 :: rest) with
        | error e =>
          simp [handle, handleInner, Request.validate, handleTimeline, hc, ht, hf, hft,
            errorCode] at hnone
        | ok kept =>
          simp [handle, handleInner, Request.validate, handleTimeline, hc, ht, hf,
            hft] at hnone
    · intro habs
      exact absurd habs (List.cons_ne_nil t0 rest)

/-- C10 witness: with an environment whose fetch returns the empty
timeline, the handler run on a well-formed request produces no response. -/
theorem timeline_empty_fetch_panics_witness :
    handle envEmptyTL handlerEx reqTimelineEx = none :=
  (timeline_empty_fetch_panics envEmptyTL handlerEx reqTimelineEx "alice" []
      ⟨"alice", "tok"⟩ [] rfl rfl rfl rfl rfl).mpr rfl

/-- Every successful response of the plain-call handler carries the
request's id. -/
lemma handlePlain_ok_id (env : Env) (hd : Handler) (req : Request) (r : Response)
    (h : handlePlain env hd req = some (.ok r)) : r.id = req.id := by
  unfold handlePlain at h
  repeat' split at h
  all_goals simp_all
  all_goals rw [← h]

/-- Every successful response of the home-timeline handler carries the
request's id. -/
lemma handleTimeline_ok_id (env : Env) (hd : Handler) (req : Request) (r : Response)
    (h : handleTimeline env hd req = some (.ok r)) : r.id = req.id := by
  unfold handleTimeline at h
  repeat' split at h
  all_goals simp_all
  all_goals rw [← h]

/-- Every successful response of the status handler carries the request's
id. -/
lemma handleStatus_ok_id (req : Request) (r : Response)
    (h : handleStatus req = some (.ok r)) : r.id = req.id := by
  unfold handleStatus at h
  repeat' split at h
  all_goals simp_all
  all_goals rw [← h]

/-- Every successful response of the account-list handler carries the
request's id. -/
lemma handleAccountList_ok_id (hd : Handler) (req : Request) (r : Response)
    (h : handleAccountList hd req = some (.ok r)) : r.id = req.id := by
  unfold handleAccountList at h
  repeat' split at h
  all_goals simp_all
  all_goals rw [← h]

/-- Every successful response of the inner dispatcher carries the
request's id. -/
lemma handleInner_ok_id (env : Env) (hd : Handler) (req : Request) (r : Response)
    (h : handleInner env hd req = some (.ok r)) : r.id = req.id := by
  unfold handleInner at h
  split at h
  · cases h
  · split at h
    · exact handlePlain_ok_id env hd req r h
    · exact handleTimeline_ok_id env hd req r h
    · exact handleStatus_ok_id req r h
    · exact handleAccountList_ok_id hd req r h

/-- C6: a request whose protocol version differs from the fixed literal
`"2.0"` is answered with an error response of code `-32600`; and every
response the dispatcher produces — success or failure — echoes the
request's id. -/
theorem protocol_version_and_id_echo (env : Env) (hd : Handler) (req : Request) :
    (req.jsonrpc ≠ JSONRPC_VERSION →
      handle env hd req = some ⟨JSONRPC_VERSION,
        .Error ⟨-32600, AppError.message (.RpcVersion req.jsonrpc), none⟩, req.id⟩) ∧
    (∀ resp : Response, handle env hd req = some resp → resp.id = req.id) := by
  constructor
  · intro hv
    unfold handle handleInner Request.validate
    rw [if_neg hv]
    rfl
  · intro resp h
    unfold handle at h
    cases hi : handleInner env hd req with
    | none => rw [hi] at h; cases h
    | some x =>
      rw [hi] at h
      cases x with
      | ok r =>
        injection h with h
        exact h ▸ handleInner_ok_id env hd req r hi
      | error e =>
        dsimp only at h
        cases hcode : errorCode e with
        | none => rw [hcode] at h; cases h
        | some c =>
          rw [hcode] at h
          injection h with h
          rw [← h]

/-- C6 witness: a status request with protocol version `"1.0"` is answered
with the `-32600` error response echoing id `"9"`. -/
theorem protocol_version_and_id_echo_witness :
    handle envEx handlerEx ⟨"1.0", .Status, .Map [], "9"⟩ =
      some ⟨JSONRPC_VERSION,
        .Error ⟨-32600, AppError.message (.RpcVersion "1.0"), none⟩, "9"⟩ :=
  (protocol_version_and_id_echo envEx handlerEx ⟨"1.0", .Status, .Map [], "9"⟩).1
    (by decide)

/-- Whatever the untagged `Plain` attempt returns, it is a `Plain` value. -/
lemma parsePlain_isPlain (v : JValue) (p : RequestParams) (h : parsePlain v = some p) :
    ∃ uid hm ep ap, p = .Plain uid hm ep ap := by
  unfold parsePlain at h
  repeat' split at h
  all_goals cases h
  exact ⟨_, _, _, _, rfl⟩

/-- Whatever the untagged `MapWithId` attempt returns, it is a `MapWithId`
value. -/
lemma parseMapWithId_isMapWithId (v : JValue) (p : RequestParams)
    (h : parseMapWithId v = some p) : ∃ uid ap, p = .MapWithId uid ap := by
  unfold parseMapWithId at h
  repeat' split at h
  all_goals cases h
  exact ⟨_, _, rfl⟩

/-- A non-empty JSON object never deserializes to the empty generic map:
either a specific shape claims it, or it becomes the generic map of its
own (non-empty) fields. -/
lemma parseRequestParams_ne_emptyMap (m : List (String × JValue)) (p : RequestParams)
    (hm : m ≠ []) (h : parseRequestParams (.obj m) = some p) : p ≠ .Map [] := by
  unfold parseRequestParams at h
  cases h1 : parsePlain (.obj m) with
  | some q =>
    rw [h1] at h
    injection h with h
    subst h
    obtain ⟨uid, hmv, ep, ap, hq⟩ := parsePlain_isPlain _ _ h1
    rw [hq]
    intro hc
    cases hc
  | none =>
    rw [h1] at h
    cases h2 : parseMapWithId (.obj m) with
    | some q =>
      rw [h2] at h
      injection h with h
      subst h
      obtain ⟨uid, ap, hq⟩ := parseMapWithId_isMapWithId _ _ h2
      rw [hq]
      intro hc
      cases hc
    | none =>
      rw [h2] at h
      injection h with h
      subst h
      intro hc
      injection hc with hc
      exact hm hc

/-- C7: a status or account-list request whose `params` is a non-empty
JSON map — whatever its keys, including keys matching another method's
shape — is answered with the parameter-mismatch error, code `-32602`,
never a success result. -/
theorem nonempty_params_rejected (env : Env) (hd : Handler) (mth : Method)
    (m : List (String × JValue)) (p : RequestParams) (idv : String)
    (hmeth : mth = .Status ∨ mth = .AccountList)
    (hmap : m ≠ [])
    (hp : parseRequestParams (.obj m) = some p) :
    handle env hd ⟨JSONRPC_VERSION, mth, p, idv⟩ =
      some ⟨JSONRPC_VERSION, .Error ⟨-32602,
        AppError.message (.RpcParamsMismatch ⟨JSONRPC_VERSION, mth, p, idv⟩),
        none⟩, idv⟩ := by
  have hp' : p ≠ .Map [] := parseRequestParams_ne_emptyMap m p hmap hp
  rcases hmeth with rfl | rfl
  · cases p with
    | Map prms =>
      have hne : prms ≠ [] := fun hh => hp' (by rw [hh])
      have hempty : prms.isEmpty = false := by
        cases prms
        · exact absurd rfl hne
        · rfl
      simp [handle, handleInner, Request.validate, handleStatus, hempty, errorCode]
    | Plain uid hmv ep ap =>
      simp [handle, handleInner, Request.validate, handleStatus, errorCode]
    | MapWithId uid ap =>
      simp [handle, handleInner, Request.validate, handleStatus, errorCode]
  · cases p with
    | Map prms =>
      have hne : prms ≠ [] := fun hh => hp' (by rw [hh])
      have hempty : prms.isEmpty = false := by
        cases prms
        · exact absurd rfl hne
        · rfl
      simp [handle, handleInner, Request.validate, handleAccountList, hempty, errorCode]
    | Plain uid hmv ep ap =>
      simp [handle, handleInner, Request.validate, handleAccountList, errorCode]
    | MapWithId uid ap =>
      simp [handle, handleInner, Request.validate, handleAccountList, errorCode]

/-- C7 witness: a status request whose params map carries the two-field
home-timeline shape (so it deserializes as `MapWithId`, not as a generic
map) is still answered with the `-32602` parameter-mismatch error. -/
theorem nonempty_params_rejected_witness :
    handle envEx handlerEx ⟨JSONRPC_VERSION, .Status, .MapWithId "alice" [], "5"⟩ =
      some ⟨JSONRPC_VERSION, .Error ⟨-32602,
        AppError.message (.RpcParamsMismatch
          ⟨JSONRPC_VERSION, .Status, .MapWithId "alice" [], "5"⟩),
        none⟩, "5"⟩ :=
  nonempty_params_rejected envEx handlerEx .Status
    [("user_id", .str "alice"), ("api_params", .obj [])] (.MapWithId "alice" []) "5"
    (Or.inl rfl) (by simp) rfl

/-- A string-typed field is present exactly when the corresponding
untagged lookup succeeds. -/
lemma strField_isSome (m : List (String × JValue)) (k : String) :
    ((lookupA m k).bind JValue.asString).isSome = hasField m k isStringVal := by
  cases h : lookupA m k with
  | none => simp [h, hasField]
  | some v => cases v <;> simp [h, hasField, JValue.asString, isStringVal]

/-- An object-typed field is present exactly when the corresponding
untagged lookup succeeds. -/
lemma objField_isSome (m : List (String × JValue)) (k : String) :
    ((lookupA m k).bind JValue.asObj).isSome = hasField m k isObjVal := by
  cases h : lookupA m k with
  | none => simp [h, hasField]
  | some v => cases v <;> simp [h, hasField, JValue.asObj, isObjVal]

/-- An HTTP-method field is present exactly when the corresponding
untagged lookup succeeds. -/
lemma httpField_isSome (m : List (String × JValue)) (k : String) :
    (((lookupA m k).bind JValue.asString).bind HttpMethod.ofString).isSome
      = hasField m k isHttpMethodVal := by
  cases h : lookupA m k with
  | none => simp [h, hasField]
  | some v => cases v <;> simp [h, hasField, JValue.asString, isHttpMethodVal]

/-- The untagged `Plain` attempt succeeds exactly on maps with the
four-field plain-call shape. -/
lemma parsePlain_obj_isSome (m : List (String × JValue)) :
    (parsePlain (.obj m)).isSome = plainShape m := by
  unfold plainShape
  rw [← strField_isSome m "user_id", ← httpField_isSome m "http_method",
    ← strField_isSome m "endpoint", ← objField_isSome m "api_params"]
  unfold parsePlain
  dsimp only [JValue.asObj]
  cases h1 : (lookupA m "user_id").bind JValue.asString <;>
    cases h2 : ((lookupA m "http_method").bind JValue.asString).bind HttpMethod.ofString <;>
      cases h3 : (lookupA m "endpoint").bind JValue.asString <;>
        cases h4 : (lookupA m "api_params").bind JValue.asObj <;>
          simp [h1, h2, h3, h4]

/-- The untagged `MapWithId` attempt succeeds exactly on maps with the
two-field home-timeline shape. -/
lemma parseMapWithId_obj_isSome (m : List (String × JValue)) :
    (parseMapWithId (.obj m)).isSome = mapWithIdShape m := by
  unfold mapWithIdShape
  rw [← strField_isSome m "user_id", ← objField_isSome m "api_params"]
  unfold parseMapWithId
  dsimp only [JValue.asObj]
  cases h1 : (lookupA m "user_id").bind JValue.asString <;>
    cases h2 : (lookupA m "api_params").bind JValue.asObj <;>
      simp [h1, h2]

/-- C9: the untagged parameter shapes are matched most-specific first.  A
map with the four-field plain-call shape deserializes as `Plain`; failing
that, a map with the two-field shape deserializes as `MapWithId`; only a
map matching neither becomes the generic key-value `Map` — so a params
value carrying the fields of a specific shape is never classified as the
generic map. -/
theorem params_shape_matching_order (m : List (String × JValue)) :
    (plainShape m = true →
      ∃ uid hm ep ap, parseRequestParams (.obj m) = some (.Plain uid hm ep ap)) ∧
    (plainShape m = false → mapWithIdShape m = true →
      ∃ uid ap, parseRequestParams (.obj m) = some (.MapWithId uid ap)) ∧
    (plainShape m = false → mapWithIdShape m = false →
      parseRequestParams (.obj m) = some (.Map m)) ∧
    (mapWithIdShape m = true →
      ∀ m' : List (String × JValue), parseRequestParams (.obj m) ≠ some (.Map m')) := by
  have hplain := parsePlain_obj_isSome m
  have hmwi := parseMapWithId_obj_isSome m
  refine ⟨?_, ?_, ?_, ?_⟩
  · intro hs
    rw [hs] at hplain
    obtain ⟨q, hq⟩ := Option.isSome_iff_exists.mp hplain
    obtain ⟨uid, hmv, ep, ap, hqe⟩ := parsePlain_isPlain _ _ hq
    subst hqe
    exact ⟨uid, hmv, ep, ap, by simp [parseRequestParams, hq]⟩
  · intro h1 h2
    rw [h1] at hplain
    rw [h2] at hmwi
    have hq1 : parsePlain (.obj m) = none := by
      cases hq : parsePlain (.obj m)
      · rfl
      · rw [hq] at hplain; cases hplain
    obtain ⟨q, hq⟩ := Option.isSome_iff_exists.mp hmwi
    obtain ⟨uid, ap, hqe⟩ := parseMapWithId_isMapWithId _ _ hq
    subst hqe
    exact ⟨uid, ap, by simp [parseRequestParams, hq1, hq]⟩
  · intro h1 h2
    rw [h1] at hplain
    rw [h2] at hmwi
    have hq1 : parsePlain (.obj m) = none := by
      cases hq : parsePlain (.obj m)
      · rfl
      · rw [hq] at hplain; cases hplain
    have hq2 : parseMapWithId (.obj m) = none := by
      cases hq : parseMapWithId (.obj m)
      · rfl
      · rw [hq] at hmwi; cases hmwi
    simp [parseRequestParams, hq1, hq2, JValue.asObj]
  · intro h2 m' hcontra
    unfold parseRequestParams at hcontra
    cases hq : parsePlain (.obj m) with
    | some q =>
      rw [hq] at hcontra
      injection hcontra with hcontra
      obtain ⟨uid, hmv, ep, ap, hqe⟩ := parsePlain_isPlain _ _ hq
      rw [hqe] at hcontra
      cases hcontra
    | none =>
      rw [hq] at hcontra
      cases hq2 : parseMapWithId (.obj m) with
      | some q =>
        rw [hq2] at hcontra
        injection hcontra with hcontra
        obtain ⟨uid, ap, hqe⟩ := parseMapWithId_isMapWithId _ _ hq2
        rw [hqe] at hcontra
        cases hcontra
      | none =>
        rw [h2] at hmwi
        rw [hq2] at hmwi
        simp at hmwi

/-- A params map carrying the full plain-call shape plus an extra field. -/
def plainParamsEx : List (String × JValue) :=
  [("user_id", .str "u"), ("http_method", .str "GET"), ("endpoint", .str "/x"),
    ("api_params", .obj []), ("extra", .null)]

/-- C9 witness: the concrete map with all four plain-call fields (plus an
extra one) deserializes as the `Plain` shape. -/
theorem params_shape_matching_order_witness :
    ∃ uid hm ep ap, parseRequestParams (.obj plainParamsEx) =
      some (.Plain uid hm ep ap) :=
  (params_shape_matching_order plainParamsEx).1 rfl

end Binchotan
